import Mathlib

/-!
Verification of the cycle-phase inference core of `period_tracker_app.py`.

Dates are modelled as integer day indices: the Python code manipulates
`datetime.date` values only through day-differences (`(d1 - d2).days`) and
day-shifts (`d + timedelta(days = n)`), which are translation invariant, so an
arbitrary epoch may be fixed.  In the concrete examples below, 2024-01-01 is
day 0 (hence 2024-01-05 is day 4, 2024-01-10 is day 9, 2024-01-29 is day 28).

Python's `round(num / den)` (float division of two integer day counts,
then Python 3 rounding: nearest integer, ties to the even integer) is
modelled exactly on the rational `num / den` by `pyRoundDiv num den`,
written with integer floor-division and remainder so that it evaluates by
kernel reduction; for day-scale integers the float quotient rounds
identically to the exact rational quotient.  Python's floor division `//`
and floor modulo `%` on integers are `Int.fdiv` and `Int.fmod`.  The Python
code would raise
`ZeroDivisionError` when `avg_cycle = 0` reaches the modulo; the embedding is
total there, and every theorem touching that path assumes `1 ≤ avg_cycle`.

The Streamlit session state read and written by `calculate_predictions`
(`st.session_state.avg_cycle`, `st.session_state.avg_period_length`) is made
explicit as a `SessionState` value threaded through the function, which
returns the result together with the updated state.  The human-readable
`stage_detail` strings and the stage-label strings are presentation text; the
stage label is modelled by the `Stage` enumeration together with `stage_day`,
the day number interpolated into the label (absent for labels that carry no
day number).
-/

/-- One recorded menstrual period: Python dict `{'start': date, 'end': date}`.
`end` is a Lean keyword, so the field is named `end_`. -/
structure PeriodRecord where
  start : Int
  end_ : Int
  deriving DecidableEq, Repr

/-- Phase labels produced by `calculate_predictions` (`current_stage` strings).
`noRecord` is the initial "無紀錄" value, `historical` the 歷史查詢 label,
`mensesRecorded`/`mensesProjected` the two 月經期 labels, `delayed` the
週期可能延遲 label, and `luteal`/`fertile`/`follicular` the 黃體期/排卵期/濾泡期
labels. -/
inductive Stage where
  | noRecord
  | historical
  | mensesRecorded
  | mensesProjected
  | delayed
  | luteal
  | fertile
  | follicular
  deriving DecidableEq, Repr

/-- The ambient Streamlit session values the core reads and writes. -/
structure SessionState where
  avg_cycle : Int
  avg_period_length : Int
  deriving DecidableEq, Repr

/-- The `result` dictionary returned by `calculate_predictions`.  The
`current_stage` string is split into the `Stage` label and `stage_day`, the
day number shown inside the label.  `stage_detail` (pure presentation text)
is omitted. -/
structure PredictionResult where
  last_period_date : Option Int
  next_period_start : Option Int
  avg_cycle : Int
  avg_period_length : Int
  current_stage : Stage
  stage_day : Option Int
  day_since_start : Int
  last_period_end_date : Option Int
  target_date : Int
  days_to_next_period : Option Int
  deriving DecidableEq, Repr

/-- Python 3 `round(num / den)` for integer `num` and positive integer `den`,
computed exactly on the rational `num / den`: `f` is the floor of the
quotient and `r` the remainder, so the fractional part is `r / den`; the
quotient rounds down when `r / den < 1/2`, up when `r / den > 1/2`, and to
the even neighbour on a tie. -/
def pyRoundDiv (num den : Int) : Int :=
  let f := num.fdiv den
  let r := num.fmod den
  if 2 * r < den then f
  else if den < 2 * r then f + 1
  else if f % 2 = 0 then f else f + 1

/-- Comparison used by `sorted(periods, key=lambda x: x['start'], reverse=True)`:
descending by `start`.  (Python's `sorted` is stable; `List.insertionSort`
with this relation is stable in the same way.) -/
def startGe (a b : PeriodRecord) : Prop := b.start ≤ a.start

instance : DecidableRel startGe := fun a b => inferInstanceAs (Decidable (b.start ≤ a.start))

instance : IsTotal PeriodRecord startGe := ⟨fun a b => le_total b.start a.start⟩

instance : IsTrans PeriodRecord startGe := ⟨fun _ _ _ h₁ h₂ => le_trans h₂ h₁⟩

/-- Python `sum((start_dates[i] - start_dates[i+1]).days for i in range(len(start_dates) - 1))`. -/
def gapSum : List Int → Int
  | a :: b :: rest => (a - b) + gapSum (b :: rest)
  | _ => 0

/-- Python `sum((r['end'] - r['start']).days + 1 for r in periods)`. -/
def mensesSum (periods : List PeriodRecord) : Int :=
  (periods.map (fun r => r.end_ - r.start + 1)).sum

/-- Lines 138-143: `avg_cycle = round(total_cycle_length / (len(start_dates) - 1))`
when more than one start date exists, otherwise the caller-supplied value. -/
def statsAvgCycle (start_dates : List Int) (avg_cycle₀ : Int) : Int :=
  if start_dates.length > 1 then
    pyRoundDiv (gapSum start_dates) ((start_dates.length : Int) - 1)
  else avg_cycle₀

/-- Lines 146-148: `avg_period_length = round(total_period_length / len(periods))`.
Summed over `periods` in input order, exactly as the source does. -/
def statsAvgMenses (periods : List PeriodRecord) : Int :=
  pyRoundDiv (mensesSum periods) (periods.length : Int)

/-- Lines 154-233: phase classification of `target_date` given the most recent
record `last`, the (possibly recomputed) `avg_cycle`, the recomputed
`avg_period_length` stored into the result, and `projected_menses_duration`
(the session value read at line 152). -/
def classifyTarget (last : PeriodRecord) (avg_cycle avg_period_length
    projected_menses_duration target_date : Int) : PredictionResult :=
  let last_period_date := last.start
  let last_period_end_date := last.end_
  let day_in_entire_history := (target_date - last_period_date) + 1
  let base : PredictionResult :=
    { last_period_date := some last_period_date
      next_period_start := none
      avg_cycle := avg_cycle
      avg_period_length := avg_period_length
      current_stage := Stage.noRecord
      stage_day := none
      day_since_start := day_in_entire_history
      last_period_end_date := some last_period_end_date
      target_date := target_date
      days_to_next_period := none }
  if target_date < last_period_date then
    let projected_next_period_start := last_period_date + avg_cycle
    { base with
      current_stage := Stage.historical
      next_period_start := some projected_next_period_start
      days_to_next_period :=
        if projected_next_period_start > target_date then
          some (projected_next_period_start - target_date)
        else none }
  else if target_date ≤ last_period_end_date then
    let projected_next_period_start := last_period_date + avg_cycle
    { base with
      current_stage := Stage.mensesRecorded
      stage_day := some day_in_entire_history
      next_period_start := some projected_next_period_start
      days_to_next_period :=
        if projected_next_period_start > target_date then
          some (projected_next_period_start - target_date)
        else some 0 }
  else
    let day_in_projected_cycle := (day_in_entire_history - 1).fmod avg_cycle + 1
    let cycles_passed := (day_in_entire_history - 1).fdiv avg_cycle
    let projected_cycle_start := last_period_date + cycles_passed * avg_cycle
    let projected_next_period_start := projected_cycle_start + avg_cycle
    let projected_menses_end := projected_cycle_start + projected_menses_duration - 1
    let projected_ovulation_date := projected_next_period_start - 14
    let projected_fertile_start := projected_ovulation_date - 5
    let projected_fertile_end := projected_ovulation_date
    let base₂ :=
      { base with
        next_period_start := some projected_next_period_start
        days_to_next_period := some (projected_next_period_start - target_date) }
    if projected_cycle_start ≤ target_date ∧ target_date ≤ projected_menses_end then
      { base₂ with
        current_stage := Stage.mensesProjected
        stage_day := some day_in_projected_cycle }
    else if target_date ≥ projected_next_period_start then
      { base₂ with
        current_stage := Stage.delayed
        stage_day := some day_in_projected_cycle
        days_to_next_period := some 0 }
    else if target_date > projected_fertile_end then
      { base₂ with
        current_stage := Stage.luteal
        stage_day := some day_in_projected_cycle }
    else if projected_fertile_start ≤ target_date ∧ target_date ≤ projected_fertile_end then
      { base₂ with
        current_stage := Stage.fertile
        stage_day := some day_in_projected_cycle }
    else if target_date < projected_fertile_start then
      { base₂ with
        current_stage := Stage.follicular
        stage_day := some day_in_projected_cycle }
    else base₂

/-- Lines 108-235: the whole of `calculate_predictions(periods, avg_cycle, target_date)`,
with the ambient session state made an explicit argument and second return
component. -/
def calculate_predictions (periods : List PeriodRecord) (avg_cycle₀ target_date : Int)
    (s : SessionState) : PredictionResult × SessionState :=
  let result₀ : PredictionResult :=
    { last_period_date := none
      next_period_start := none
      avg_cycle := avg_cycle₀
      avg_period_length := s.avg_period_length
      current_stage := Stage.noRecord
      stage_day := none
      day_since_start := 0
      last_period_end_date := none
      target_date := target_date
      days_to_next_period := none }
  match List.insertionSort startGe periods with
  | [] => (result₀, s)
  | last :: rest =>
    let start_dates := (last :: rest).map (fun r => r.start)
    let avg_cycle := statsAvgCycle start_dates avg_cycle₀
    let s₁ := if start_dates.length > 1 then { s with avg_cycle := avg_cycle } else s
    let s₂ :=
      if periods.length > 0 then { s₁ with avg_period_length := statsAvgMenses periods }
      else s₁
    let avg_period_length :=
      if periods.length > 0 then statsAvgMenses periods else s.avg_period_length
    let projected_menses_duration := s₂.avg_period_length
    (classifyTarget last avg_cycle avg_period_length projected_menses_duration target_date, s₂)

/-- Abstract position-based view of the projected-mode sub-classification:
given the cycle length `A`, the projected menses duration `M` and the
0-based position `r` of the target inside its projected cycle
(`r = (target - projected_cycle_start)`, with `0 ≤ r < A`), this is the
stage the branch chain of lines 207-233 selects.  Used only in theorem
statements and proofs, never by the embedding itself. -/
def stageOfPos (A M r : Int) : Stage :=
  if r ≤ M - 1 then Stage.mensesProjected
  else if A - 14 < r then Stage.luteal
  else if A - 19 ≤ r then Stage.fertile
  else Stage.follicular

/-- Position of a projected-mode stage in the within-cycle order
MENSES(projected) → FOLLICULAR → FERTILE → LUTEAL (→ DELAYED, unreachable).
The non-projected stages are given a rank past every projected one. -/
def stageRank : Stage → Nat
  | Stage.mensesProjected => 0
  | Stage.follicular => 1
  | Stage.fertile => 2
  | Stage.luteal => 3
  | Stage.delayed => 4
  | _ => 5

/-- The strict version of `startGe`, used to identify the sorted list
uniquely when all start dates are distinct. -/
def startGt (a b : PeriodRecord) : Prop := b.start < a.start

instance : IsAntisymm PeriodRecord startGt :=
  ⟨fun _ _ h₁ h₂ => absurd (lt_trans h₁ h₂) (lt_irrefl _)⟩

/-! ### Helper lemmas -/

lemma insertionSort_startGe_perm (l : List PeriodRecord) :
    (List.insertionSort startGe l).Perm l :=
  List.perm_insertionSort startGe l

lemma insertionSort_startGe_sorted (l : List PeriodRecord) :
    List.Sorted startGe (List.insertionSort startGe l) :=
  List.sorted_insertionSort startGe l

lemma insertionSort_ne_nil {l : List PeriodRecord} (h : l ≠ []) :
    List.insertionSort startGe l ≠ [] := by
  intro hnil
  exact h (List.Perm.eq_nil ((insertionSort_startGe_perm l).symm.trans (hnil ▸ List.Perm.refl _)))

lemma exists_sort_cons {l : List PeriodRecord} (h : l ≠ []) :
    ∃ last rest, List.insertionSort startGe l = last :: rest := by
  cases hs : List.insertionSort startGe l with
  | nil => exact absurd hs (insertionSort_ne_nil h)
  | cons a b => exact ⟨a, b, rfl⟩

lemma sorted_strict_of_distinct {l : List PeriodRecord}
    (hs : List.Sorted startGe l)
    (hd : l.Pairwise (fun a b => a.start ≠ b.start)) :
    List.Sorted startGt l := by
  have := List.Pairwise.and hs hd
  exact this.imp (fun h => lt_of_le_of_ne h.1 (Ne.symm h.2))

lemma pairwise_ne_of_perm {l l' : List PeriodRecord}
    (hp : l.Perm l')
    (hd : l'.Pairwise (fun a b => a.start ≠ b.start)) :
    l.Pairwise (fun a b => a.start ≠ b.start) := by
  exact (List.Perm.pairwise_iff (fun h => Ne.symm h) hp).mpr hd

lemma sorted_unique {periods l' : List PeriodRecord}
    (hdist : periods.Pairwise (fun a b => a.start ≠ b.start))
    (hperm : l'.Perm periods)
    (hsorted : List.Sorted startGe l') :
    l' = List.insertionSort startGe periods := by
  have hperm' : l'.Perm (List.insertionSort startGe periods) :=
    hperm.trans (insertionSort_startGe_perm periods).symm
  have hd₁ : l'.Pairwise (fun a b => a.start ≠ b.start) :=
    pairwise_ne_of_perm hperm hdist
  have hd₂ : (List.insertionSort startGe periods).Pairwise (fun a b => a.start ≠ b.start) :=
    pairwise_ne_of_perm (insertionSort_startGe_perm periods) hdist
  exact List.eq_of_perm_of_sorted hperm'
    (sorted_strict_of_distinct hsorted hd₁)
    (sorted_strict_of_distinct (insertionSort_startGe_sorted periods) hd₂)

lemma fdivmod_char {d a q r : Int} (ha : 0 < a)
    (hd : d = a * q + r) (h0 : 0 ≤ r) (hr : r < a) :
    d.fdiv a = q ∧ d.fmod a = r := by
  have h1 : d / a = q ∧ d % a = r :=
    (Int.ediv_emod_unique ha).mpr ⟨by omega, h0, hr⟩
  constructor
  · rw [Int.fdiv_eq_ediv _ (le_of_lt ha)]
    exact h1.1
  · rw [Int.fmod_eq_emod _ (le_of_lt ha)]
    exact h1.2

lemma fdiv_fmod_decomp (d a : Int) : d = a * d.fdiv a + d.fmod a := by
  have h := Int.fmod_add_fdiv d a
  linarith

lemma fmod_bounds (d : Int) {a : Int} (ha : 0 < a) :
    0 ≤ d.fmod a ∧ d.fmod a < a :=
  ⟨Int.fmod_nonneg' d ha, Int.fmod_lt_of_pos d ha⟩

lemma classifyTarget_fields (last : PeriodRecord) (A m M t : Int) :
    (classifyTarget last A m M t).last_period_date = some last.start ∧
    (classifyTarget last A m M t).last_period_end_date = some last.end_ ∧
    (classifyTarget last A m M t).avg_cycle = A ∧
    (classifyTarget last A m M t).avg_period_length = m ∧
    (classifyTarget last A m M t).target_date = t := by
  unfold classifyTarget
  dsimp only
  split_ifs <;> simp

lemma classifyTarget_historical (last : PeriodRecord) (A m M t : Int)
    (h : t < last.start) :
    classifyTarget last A m M t =
      { last_period_date := some last.start
        next_period_start := some (last.start + A)
        avg_cycle := A
        avg_period_length := m
        current_stage := Stage.historical
        stage_day := none
        day_since_start := (t - last.start) + 1
        last_period_end_date := some last.end_
        target_date := t
        days_to_next_period :=
          if last.start + A > t then some (last.start + A - t) else none } := by
  unfold classifyTarget
  dsimp only
  rw [if_pos h]

lemma classifyTarget_menses_recorded (last : PeriodRecord) (A m M t : Int)
    (h1 : ¬ t < last.start) (h2 : t ≤ last.end_) :
    classifyTarget last A m M t =
      { last_period_date := some last.start
        next_period_start := some (last.start + A)
        avg_cycle := A
        avg_period_length := m
        current_stage := Stage.mensesRecorded
        stage_day := some ((t - last.start) + 1)
        day_since_start := (t - last.start) + 1
        last_period_end_date := some last.end_
        target_date := t
        days_to_next_period :=
          if last.start + A > t then some (last.start + A - t) else some 0 } := by
  unfold classifyTarget
  dsimp only
  rw [if_neg h1, if_pos h2]

lemma stageOfPos_ne_delayed (A M r : Int) : stageOfPos A M r ≠ Stage.delayed := by
  unfold stageOfPos
  split_ifs <;> simp

lemma classifyTarget_projected (last : PeriodRecord) (A m M t q r : Int)
    (hA : 0 < A) (hstart : ¬ t < last.start) (hend : ¬ t ≤ last.end_)
    (hd : t - last.start = A * q + r) (h0 : 0 ≤ r) (hr : r < A) :
    classifyTarget last A m M t =
      { last_period_date := some last.start
        next_period_start := some (last.start + q * A + A)
        avg_cycle := A
        avg_period_length := m
        current_stage := stageOfPos A M r
        stage_day := some (r + 1)
        day_since_start := (t - last.start) + 1
        last_period_end_date := some last.end_
        target_date := t
        days_to_next_period := some (last.start + q * A + A - t) } := by
  have h' : t - last.start + 1 - 1 = A * q + r := by omega
  have hq : (t - last.start + 1 - 1).fdiv A = q := (fdivmod_char hA h' h0 hr).1
  have hm : (t - last.start + 1 - 1).fmod A = r := (fdivmod_char hA h' h0 hr).2
  have hcomm : A * q = q * A := mul_comm A q
  have hqA : ((t - last.start + 1 - 1).fdiv A) * A = q * A := by rw [hq]
  unfold classifyTarget stageOfPos
  dsimp only
  rw [if_neg hstart, if_neg hend]
  split_ifs <;>
    simp only [PredictionResult.mk.injEq, Option.some.injEq, eq_self_iff_true,
      true_and, and_true] <;>
    omega

lemma calculate_predictions_nonempty (periods : List PeriodRecord)
    (avg_cycle₀ target_date : Int) (s : SessionState)
    (last : PeriodRecord) (rest : List PeriodRecord)
    (hsort : List.insertionSort startGe periods = last :: rest) :
    calculate_predictions periods avg_cycle₀ target_date s =
      (classifyTarget last
        (statsAvgCycle ((last :: rest).map (fun r => r.start)) avg_cycle₀)
        (statsAvgMenses periods) (statsAvgMenses periods) target_date,
       if 1 < periods.length then
         { avg_cycle := statsAvgCycle ((last :: rest).map (fun r => r.start)) avg_cycle₀
           avg_period_length := statsAvgMenses periods }
       else
         { avg_cycle := s.avg_cycle
           avg_period_length := statsAvgMenses periods }) := by
  have hne : periods ≠ [] := by
    intro h
    rw [h] at hsort
    exact List.noConfusion (hsort.symm.trans (rfl : List.insertionSort startGe [] = []))
  have hlen0 : 0 < periods.length := List.length_pos.mpr hne
  have hlen : ((last :: rest).map (fun r => r.start)).length = periods.length := by
    rw [List.length_map, ← hsort, List.length_insertionSort]
  unfold calculate_predictions
  rw [hsort]
  dsimp only
  by_cases hc : 1 < periods.length
  · rw [if_pos (by omega : ((last :: rest).map (fun r => r.start)).length > 1), if_pos hc]
    simp [hlen0]
  · rw [if_neg (by omega : ¬ ((last :: rest).map (fun r => r.start)).length > 1), if_neg hc]
    simp [hlen0]

lemma stageOfPos_rank_mono (A M r : Int) :
    stageRank (stageOfPos A M r) ≤ stageRank (stageOfPos A M (r + 1)) := by
  unfold stageOfPos
  split_ifs <;> first | decide | omega

lemma stageOfPos_menses_iff (A M r : Int) :
    stageOfPos A M r = Stage.mensesProjected ↔ r ≤ M - 1 := by
  unfold stageOfPos
  split_ifs with h1 h2 h3 <;> simp_all

lemma pyRoundDiv_half {T m k : Int} (hm : 0 < m) (h : 2 * T = m * (2 * k + 1)) :
    pyRoundDiv T m = if k % 2 = 0 then k else k + 1 := by
  have hexp : m * (2 * k + 1) = 2 * (m * k) + m := by ring
  rw [hexp] at h
  have h2r : 2 * (T - m * k) = m := by linarith
  have hd : T = m * k + (T - m * k) := by ring
  have h0 : 0 ≤ T - m * k := by linarith
  have hlt : T - m * k < m := by linarith
  have hchar := fdivmod_char hm hd h0 hlt
  unfold pyRoundDiv
  dsimp only
  rw [hchar.1, hchar.2, if_neg (by linarith), if_neg (by linarith)]

/-! ### Claim theorems -/

/-- C2, counterexample: for history `[{start: 2024-01-01, end: 2024-01-05}]`
(days 0..4) with caller average 28 and session menses length 5, the target
2024-01-10 (day 9) is classified FERTILE (排卵期), not FOLLICULAR as the
claim states: day 9 is exactly `projected_fertile_start`
(= 2024-01-29 − 14 − 5), so the fertile branch fires first. -/
theorem claim2_counterexample :
    (calculate_predictions [⟨0, 4⟩] 28 9 ⟨28, 5⟩).1.current_stage = Stage.fertile ∧
      Stage.fertile ≠ Stage.follicular := by
  decide

/-- C2, amended: for the same input, classification returns phase FERTILE
with `cycleDayNumber = 10` and `daysUntilNextPeriod = 19`. -/
theorem claim2_amended :
    (calculate_predictions [⟨0, 4⟩] 28 9 ⟨28, 5⟩).1.current_stage = Stage.fertile ∧
      (calculate_predictions [⟨0, 4⟩] 28 9 ⟨28, 5⟩).1.stage_day = some 10 ∧
      (calculate_predictions [⟨0, 4⟩] 28 9 ⟨28, 5⟩).1.days_to_next_period = some 19 := by
  decide

/-- C3, counterexample: for the same history, the target 2024-01-29 (day 28,
which equals `last.start + avgCycleLength`) is NOT classified DELAYED and its
`daysUntilNextPeriod` is not 0: at that date `cycles_passed` becomes 1, so the
projected-menses check (priority 1) captures it first. -/
theorem claim3_counterexample :
    (calculate_predictions [⟨0, 4⟩] 28 28 ⟨28, 5⟩).1.current_stage ≠ Stage.delayed ∧
      (calculate_predictions [⟨0, 4⟩] 28 28 ⟨28, 5⟩).1.days_to_next_period ≠ some 0 := by
  decide

/-- C3, amended: classifying 2024-01-29 (day 28) returns projected MENSES
(月經期, projected) with `cycleDayNumber = 1` and `daysUntilNextPeriod = 28`
(the next projection moving to 2024-02-26). -/
theorem claim3_amended :
    (calculate_predictions [⟨0, 4⟩] 28 28 ⟨28, 5⟩).1.current_stage = Stage.mensesProjected ∧
      (calculate_predictions [⟨0, 4⟩] 28 28 ⟨28, 5⟩).1.stage_day = some 1 ∧
      (calculate_predictions [⟨0, 4⟩] 28 28 ⟨28, 5⟩).1.days_to_next_period = some 28 := by
  decide

/-- C9, counterexample: with an empty history but a session-stored average
menses length of 7, the reported `avg_period_length` is 7, not the default 5:
line 116 copies `st.session_state.avg_period_length` into the result. -/
theorem claim9_counterexample :
    (calculate_predictions [] 28 0 ⟨28, 7⟩).1.avg_period_length = 7 ∧ (7 : Int) ≠ 5 := by
  decide

/-- C9, amended: when the history is empty the reported `avg_period_length`
is exactly the ambient session value (which is 5 only as long as no earlier
non-empty computation overwrote it). -/
theorem claim9_amended (a t : Int) (s : SessionState) :
    (calculate_predictions [] a t s).1.avg_period_length = s.avg_period_length := rfl

/-- C10, counterexample: the statistics step is not side-effect free: for the
two-record history `[{30,33},{0,4}]` and initial session state ⟨28, 5⟩, the
call rewrites the session state to ⟨30, 4⟩ (lines 142 and 149 assign the
recomputed averages to `st.session_state`). -/
theorem claim10_counterexample :
    (calculate_predictions [⟨30, 33⟩, ⟨0, 4⟩] 28 10 ⟨28, 5⟩).2 ≠
      (⟨28, 5⟩ : SessionState) := by
  decide

/-- C10, amended: the call itself persists the recomputed averages into the
ambient session state: `avg_cycle` is overwritten with the recomputed value
whenever at least 2 records exist (otherwise kept), and `avg_period_length`
is overwritten whenever at least 1 record exists (otherwise kept); the
caller is not consulted. -/
theorem claim10_amended (periods : List PeriodRecord) (a t : Int) (s : SessionState) :
    ((calculate_predictions periods a t s).2.avg_cycle =
      if 1 < periods.length then
        statsAvgCycle ((List.insertionSort startGe periods).map (fun r => r.start)) a
      else s.avg_cycle) ∧
    ((calculate_predictions periods a t s).2.avg_period_length =
      if periods = [] then s.avg_period_length else statsAvgMenses periods) := by
  cases hs : List.insertionSort startGe periods with
  | nil =>
    have hnil : periods = [] := by
      have := insertionSort_startGe_perm periods
      rw [hs] at this
      exact (this.symm.eq_nil)
    subst hnil
    simp [calculate_predictions]
  | cons last rest =>
    have hne : periods ≠ [] := by
      intro h
      rw [h] at hs
      exact List.noConfusion hs
    rw [calculate_predictions_nonempty periods a t s last rest hs]
    by_cases hc : 1 < periods.length
    · simp [hc, hne]
    · simp [hc, hne]

/-- C4: for every non-empty history and every target date, as long as the
effective average cycle length is at least 1, the classification never
returns the DELAYED stage: in projected-cycle mode
`cycles_passed = (dayOffset - 1) // avg_cycle` places the target strictly
before `projected_next_period_start`, so the delayed branch is unreachable
(and the other branches return HISTORICAL or recorded MENSES). -/
theorem claim4_never_delayed (periods : List PeriodRecord) (a t : Int) (s : SessionState)
    (hne : periods ≠ [])
    (hA : 1 ≤ (calculate_predictions periods a t s).1.avg_cycle) :
    (calculate_predictions periods a t s).1.current_stage ≠ Stage.delayed := by
  obtain ⟨last, rest, hsort⟩ := exists_sort_cons hne
  rw [calculate_predictions_nonempty periods a t s last rest hsort] at hA ⊢
  dsimp only at hA ⊢
  rw [(classifyTarget_fields last _ _ _ t).2.2.1] at hA
  by_cases h1 : t < last.start
  · rw [classifyTarget_historical _ _ _ _ _ h1]
    simp
  · by_cases h2 : t ≤ last.end_
    · rw [classifyTarget_menses_recorded _ _ _ _ _ h1 h2]
      simp
    · have hA0 : 0 < statsAvgCycle ((last :: rest).map (fun r => r.start)) a := by linarith
      have hdecomp := fdiv_fmod_decomp (t - last.start)
        (statsAvgCycle ((last :: rest).map (fun r => r.start)) a)
      have hb := fmod_bounds (t - last.start) hA0
      rw [classifyTarget_projected last _ _ _ t _ _ hA0 h1 h2 hdecomp hb.1 hb.2]
      exact stageOfPos_ne_delayed _ _ _

/-- C4, witness at a concrete input. -/
theorem claim4_witness :
    (calculate_predictions [⟨0, 4⟩] 28 9 ⟨28, 5⟩).1.current_stage ≠ Stage.delayed :=
  claim4_never_delayed [⟨0, 4⟩] 28 9 ⟨28, 5⟩ (by decide) (by decide)

/-- C6: with `L` the latest start, `E` the latest end and `A` the effective
average cycle length, a target inside the recorded interval (`L ≤ t ≤ E`)
yields recorded MENSES with `daysUntilNextPeriod` equal to the gap to
`L + A` clamped to zero (never null), while a target before `L` yields
HISTORICAL with that gap when positive and null otherwise. -/
theorem claim6_days_until (periods : List PeriodRecord) (a t : Int) (s : SessionState)
    (L E A : Int)
    (hL : (calculate_predictions periods a t s).1.last_period_date = some L)
    (hE : (calculate_predictions periods a t s).1.last_period_end_date = some E)
    (hA : (calculate_predictions periods a t s).1.avg_cycle = A) :
    (L ≤ t → t ≤ E →
      (calculate_predictions periods a t s).1.current_stage = Stage.mensesRecorded ∧
      (calculate_predictions periods a t s).1.days_to_next_period =
        some (max (L + A - t) 0)) ∧
    (t < L →
      (calculate_predictions periods a t s).1.current_stage = Stage.historical ∧
      (calculate_predictions periods a t s).1.days_to_next_period =
        (if t < L + A then some (L + A - t) else none)) := by
  have hne : periods ≠ [] := by
    intro h
    subst h
    simp [calculate_predictions] at hL
  obtain ⟨last, rest, hsort⟩ := exists_sort_cons hne
  rw [calculate_predictions_nonempty periods a t s last rest hsort] at hL hE hA ⊢
  dsimp only at hL hE hA ⊢
  obtain ⟨hf1, hf2, hf3, hf4, hf5⟩ :=
    classifyTarget_fields last (statsAvgCycle ((last :: rest).map (fun r => r.start)) a)
      (statsAvgMenses periods) (statsAvgMenses periods) t
  rw [hf1] at hL
  rw [hf2] at hE
  rw [hf3] at hA
  have hLs : L = last.start := (Option.some.inj hL).symm
  have hEs : E = last.end_ := (Option.some.inj hE).symm
  subst hLs
  subst hEs
  subst hA
  constructor
  · intro h1 h2
    rw [classifyTarget_menses_recorded _ _ _ _ _ (not_lt.mpr h1) h2]
    refine ⟨rfl, ?_⟩
    dsimp only
    split_ifs with h
    · congr 1
      omega
    · congr 1
      omega
  · intro h1
    rw [classifyTarget_historical _ _ _ _ _ h1]
    exact ⟨rfl, rfl⟩

/-- C6, witness at a concrete input. -/
theorem claim6_witness :
    (0 ≤ (2 : Int) → (2 : Int) ≤ 4 →
      (calculate_predictions [⟨0, 4⟩] 28 2 ⟨28, 5⟩).1.current_stage = Stage.mensesRecorded ∧
      (calculate_predictions [⟨0, 4⟩] 28 2 ⟨28, 5⟩).1.days_to_next_period =
        some (max (0 + 28 - 2) 0)) ∧
    ((2 : Int) < 0 →
      (calculate_predictions [⟨0, 4⟩] 28 2 ⟨28, 5⟩).1.current_stage = Stage.historical ∧
      (calculate_predictions [⟨0, 4⟩] 28 2 ⟨28, 5⟩).1.days_to_next_period =
        (if (2 : Int) < 0 + 28 then some (0 + 28 - 2) else none)) :=
  claim6_days_until [⟨0, 4⟩] 28 2 ⟨28, 5⟩ 0 4 28 (by decide) (by decide) (by decide)

/-- C8: for every non-empty well-formed history (`L ≤ E`), every target date
strictly after the latest recorded end (`E < t`), and an effective average
cycle length `A ≥ 1`, the projected-mode cycle day number
`((dayOffset - 1) mod A) + 1` reported in the stage label lies in `[1, A]`. -/
theorem claim8_cycle_day_in_range (periods : List PeriodRecord) (a t : Int)
    (s : SessionState) (L E A : Int)
    (hL : (calculate_predictions periods a t s).1.last_period_date = some L)
    (hE : (calculate_predictions periods a t s).1.last_period_end_date = some E)
    (hA : (calculate_predictions periods a t s).1.avg_cycle = A)
    (hA1 : 1 ≤ A) (hLE : L ≤ E) (hEt : E < t) :
    ∃ c : Int, (calculate_predictions periods a t s).1.stage_day = some c ∧
      1 ≤ c ∧ c ≤ A := by
  have hne : periods ≠ [] := by
    intro h
    subst h
    simp [calculate_predictions] at hL
  obtain ⟨last, rest, hsort⟩ := exists_sort_cons hne
  rw [calculate_predictions_nonempty periods a t s last rest hsort] at hL hE hA ⊢
  dsimp only at hL hE hA ⊢
  obtain ⟨hf1, hf2, hf3, hf4, hf5⟩ :=
    classifyTarget_fields last (statsAvgCycle ((last :: rest).map (fun r => r.start)) a)
      (statsAvgMenses periods) (statsAvgMenses periods) t
  rw [hf1] at hL
  rw [hf2] at hE
  rw [hf3] at hA
  have hLs : L = last.start := (Option.some.inj hL).symm
  have hEs : E = last.end_ := (Option.some.inj hE).symm
  subst hLs
  subst hEs
  subst hA
  have h1 : ¬ t < last.start := by omega
  have h2 : ¬ t ≤ last.end_ := by omega
  have hA0 : 0 < statsAvgCycle ((last :: rest).map (fun r => r.start)) a := by linarith
  have hdecomp := fdiv_fmod_decomp (t - last.start)
    (statsAvgCycle ((last :: rest).map (fun r => r.start)) a)
  have hb := fmod_bounds (t - last.start) hA0
  rw [classifyTarget_projected last _ _ _ t _ _ hA0 h1 h2 hdecomp hb.1 hb.2]
  exact ⟨(t - last.start).fmod (statsAvgCycle ((last :: rest).map (fun r => r.start)) a) + 1,
    rfl, by omega, by omega⟩

/-- C8, witness at a concrete input. -/
theorem claim8_witness :
    ∃ c : Int, (calculate_predictions [⟨0, 4⟩] 28 9 ⟨28, 5⟩).1.stage_day = some c ∧
      1 ≤ c ∧ c ≤ 28 :=
  claim8_cycle_day_in_range [⟨0, 4⟩] 28 9 ⟨28, 5⟩ 0 4 28 (by decide) (by decide)
    (by decide) (by decide) (by decide) (by decide)

/-- C1: for every non-empty history with pairwise-distinct start dates and
`end ≥ start`, the statistics step computes `avg_cycle` as the
banker's-rounded mean of the consecutive start-date gaps of the history
sorted by start descending (for any witnessing sorted permutation) when at
least 2 records exist, keeps the caller-supplied value when exactly 1 record
exists, and computes `avg_period_length` as the banker's-rounded mean of
`(end - start) + 1` over all records, independently of the input order. -/
theorem claim1_statistics (periods : List PeriodRecord) (avg_cycle₀ target_date : Int)
    (s : SessionState)
    (hne : periods ≠ [])
    (hdist : periods.Pairwise (fun a b => a.start ≠ b.start))
    (_hwf : ∀ r ∈ periods, r.start ≤ r.end_) :
    (∀ l' : List PeriodRecord, l'.Perm periods → List.Sorted startGe l' →
        2 ≤ periods.length →
        (calculate_predictions periods avg_cycle₀ target_date s).1.avg_cycle =
          pyRoundDiv (gapSum (l'.map (fun r => r.start))) ((periods.length : Int) - 1)) ∧
    (periods.length = 1 →
        (calculate_predictions periods avg_cycle₀ target_date s).1.avg_cycle = avg_cycle₀) ∧
    ((calculate_predictions periods avg_cycle₀ target_date s).1.avg_period_length =
        pyRoundDiv (mensesSum periods) (periods.length : Int)) ∧
    (∀ periods' : List PeriodRecord, periods'.Perm periods →
        (calculate_predictions periods' avg_cycle₀ target_date s).1.avg_period_length =
          (calculate_predictions periods avg_cycle₀ target_date s).1.avg_period_length) := by
  obtain ⟨last, rest, hsort⟩ := exists_sort_cons hne
  have hlen : ((last :: rest).map (fun r => r.start)).length = periods.length := by
    rw [List.length_map, ← hsort, List.length_insertionSort]
  rw [calculate_predictions_nonempty periods avg_cycle₀ target_date s last rest hsort]
  dsimp only
  obtain ⟨hf1, hf2, hf3, hf4, hf5⟩ :=
    classifyTarget_fields last (statsAvgCycle ((last :: rest).map (fun r => r.start)) avg_cycle₀)
      (statsAvgMenses periods) (statsAvgMenses periods) target_date
  refine ⟨?_, ?_, ?_, ?_⟩
  · intro l' hperm hsorted hn
    rw [hf3]
    have hl' : l' = List.insertionSort startGe periods := sorted_unique hdist hperm hsorted
    rw [hl', hsort]
    unfold statsAvgCycle
    rw [if_pos (by omega : ((last :: rest).map (fun r => r.start)).length > 1), hlen]
  · intro hn1
    rw [hf3]
    unfold statsAvgCycle
    rw [if_neg (by omega : ¬ ((last :: rest).map (fun r => r.start)).length > 1)]
  · rw [hf4]
    rfl
  · intro periods' hperm
    have hne' : periods' ≠ [] := by
      intro h
      subst h
      exact hne hperm.symm.eq_nil
    obtain ⟨last', rest', hsort'⟩ := exists_sort_cons hne'
    rw [calculate_predictions_nonempty periods' avg_cycle₀ target_date s last' rest' hsort']
    dsimp only
    rw [(classifyTarget_fields last'
      (statsAvgCycle ((last' :: rest').map (fun r => r.start)) avg_cycle₀)
      (statsAvgMenses periods') (statsAvgMenses periods') target_date).2.2.2.1, hf4]
    unfold statsAvgMenses mensesSum
    rw [hperm.length_eq, (hperm.map (fun r => r.end_ - r.start + 1)).sum_eq]

/-- C1, witness at a concrete two-record history. -/
theorem claim1_witness :
    (calculate_predictions [⟨0, 4⟩, ⟨30, 33⟩] 99 0 ⟨28, 5⟩).1.avg_cycle =
      pyRoundDiv (gapSum (([⟨30, 33⟩, ⟨0, 4⟩] : List PeriodRecord).map (fun r => r.start))) 1 ∧
    (calculate_predictions [⟨0, 4⟩, ⟨30, 33⟩] 99 0 ⟨28, 5⟩).1.avg_period_length =
      pyRoundDiv (mensesSum [⟨0, 4⟩, ⟨30, 33⟩]) 2 :=
  ⟨(claim1_statistics [⟨0, 4⟩, ⟨30, 33⟩] 99 0 ⟨28, 5⟩ (by decide) (by decide)
      (by decide)).1 [⟨30, 33⟩, ⟨0, 4⟩] (by decide) (by decide) (by decide),
   (claim1_statistics [⟨0, 4⟩, ⟨30, 33⟩] 99 0 ⟨28, 5⟩ (by decide) (by decide)
      (by decide)).2.2.1⟩

/-- C7, counterexample: for the three-record history with starts 0, 28, 57
(consecutive gaps 29 and 28, mean 28.5), the computed `avg_cycle` is 28, not
29: Python 3 `round` rounds ties to the even integer, not away from zero. -/
theorem claim7_counterexample :
    (calculate_predictions [⟨57, 57⟩, ⟨28, 28⟩, ⟨0, 0⟩] 28 100 ⟨28, 5⟩).1.avg_cycle = 28 ∧
      (28 : Int) ≠ 29 := by
  decide

/-- C7, amended: on an exact half-integer mean `k + 1/2` the computed
averages round to the even neighbour (banker's rounding): `k` when `k` is
even and `k + 1` when `k` is odd — both for the cycle-gap mean over the
descending-sorted start dates and for the menses-length mean. -/
theorem claim7_amended (periods : List PeriodRecord) (a t : Int) (s : SessionState)
    (last : PeriodRecord) (rest : List PeriodRecord)
    (hsort : List.insertionSort startGe periods = last :: rest)
    (hn : 2 ≤ periods.length) :
    (∀ k : Int,
      2 * gapSum ((last :: rest).map (fun r => r.start)) =
        ((periods.length : Int) - 1) * (2 * k + 1) →
      (calculate_predictions periods a t s).1.avg_cycle =
        (if k % 2 = 0 then k else k + 1)) ∧
    (∀ j : Int,
      2 * mensesSum periods = (periods.length : Int) * (2 * j + 1) →
      (calculate_predictions periods a t s).1.avg_period_length =
        (if j % 2 = 0 then j else j + 1)) := by
  have hlen : ((last :: rest).map (fun r => r.start)).length = periods.length := by
    rw [List.length_map, ← hsort, List.length_insertionSort]
  rw [calculate_predictions_nonempty periods a t s last rest hsort]
  dsimp only
  obtain ⟨hf1, hf2, hf3, hf4, hf5⟩ :=
    classifyTarget_fields last (statsAvgCycle ((last :: rest).map (fun r => r.start)) a)
      (statsAvgMenses periods) (statsAvgMenses periods) t
  constructor
  · intro k hk
    rw [hf3]
    unfold statsAvgCycle
    rw [if_pos (by omega : ((last :: rest).map (fun r => r.start)).length > 1), hlen]
    exact pyRoundDiv_half (by omega) hk
  · intro j hj
    rw [hf4]
    unfold statsAvgMenses
    exact pyRoundDiv_half (by omega) hj

/-- C7, witness: the tie history of the counterexample, via the amended
theorem: gap total 57 over 2 gaps is the half-integer mean 28.5, and the
computed average is the even neighbour 28. -/
theorem claim7_witness :
    (calculate_predictions [⟨57, 57⟩, ⟨28, 28⟩, ⟨0, 0⟩] 28 100 ⟨28, 5⟩).1.avg_cycle =
      (if (28 : Int) % 2 = 0 then (28 : Int) else 28 + 1) :=
  (claim7_amended [⟨57, 57⟩, ⟨28, 28⟩, ⟨0, 0⟩] 28 100 ⟨28, 5⟩ ⟨57, 57⟩
    [⟨28, 28⟩, ⟨0, 0⟩] (by decide) (by decide)).1 28 (by decide)

/-- C5, counterexample: walking one day at a time for the history
`[{start: day 0, end: day 4}]` with average cycle 28, the day before the
projected next period start (day 27) is LUTEAL, and the endpoint day 28
(= `projectedNextPeriodStart`) is projected MENSES of the next cycle, not
DELAYED: the claimed terminal transition LUTEAL → DELAYED never happens. -/
theorem claim5_counterexample :
    (calculate_predictions [⟨0, 4⟩] 28 27 ⟨28, 5⟩).1.current_stage = Stage.luteal ∧
      (calculate_predictions [⟨0, 4⟩] 28 28 ⟨28, 5⟩).1.current_stage = Stage.mensesProjected ∧
      Stage.mensesProjected ≠ Stage.delayed := by
  decide

/-- C5, amended: as the target advances one day at a time past the recorded
end, within one projected cycle the stage is monotone in the order
MENSES(projected) → FOLLICULAR → FERTILE → LUTEAL, DELAYED never occurs,
projected MENSES occurs only at positions with cycle day ≤ `M` (the start of
a projected cycle), and when the walk crosses into the next projected cycle
the stage restarts at projected MENSES. -/
theorem claim5_phase_order (periods : List PeriodRecord) (a : Int) (s : SessionState)
    (t L E A M : Int)
    (hL : (calculate_predictions periods a t s).1.last_period_date = some L)
    (hE : (calculate_predictions periods a t s).1.last_period_end_date = some E)
    (hA : (calculate_predictions periods a t s).1.avg_cycle = A)
    (hM : (calculate_predictions periods a t s).1.avg_period_length = M)
    (hA1 : 1 ≤ A) (hM1 : 1 ≤ M) (hLE : L ≤ E) (hEt : E < t) :
    (calculate_predictions periods a t s).1.current_stage ≠ Stage.delayed ∧
    ((calculate_predictions periods a t s).1.current_stage = Stage.mensesProjected →
      (t - L).fmod A + 1 ≤ M) ∧
    ((t + 1 - L).fdiv A = (t - L).fdiv A →
      stageRank (calculate_predictions periods a t s).1.current_stage ≤
        stageRank (calculate_predictions periods a (t + 1) s).1.current_stage) ∧
    ((t + 1 - L).fdiv A ≠ (t - L).fdiv A →
      (calculate_predictions periods a (t + 1) s).1.current_stage = Stage.mensesProjected) := by
  have hne : periods ≠ [] := by
    intro h
    subst h
    simp [calculate_predictions] at hL
  obtain ⟨last, rest, hsort⟩ := exists_sort_cons hne
  rw [calculate_predictions_nonempty periods a t s last rest hsort] at hL hE hA hM ⊢
  rw [calculate_predictions_nonempty periods a (t + 1) s last rest hsort]
  dsimp only at hL hE hA hM ⊢
  obtain ⟨hf1, hf2, hf3, hf4, hf5⟩ :=
    classifyTarget_fields last (statsAvgCycle ((last :: rest).map (fun r => r.start)) a)
      (statsAvgMenses periods) (statsAvgMenses periods) t
  rw [hf1] at hL
  rw [hf2] at hE
  rw [hf3] at hA
  rw [hf4] at hM
  have hLs : L = last.start := (Option.some.inj hL).symm
  have hEs : E = last.end_ := (Option.some.inj hE).symm
  subst hLs
  subst hEs
  subst hA
  subst hM
  have h1 : ¬ t < last.start := by omega
  have h2 : ¬ t ≤ last.end_ := by omega
  have h1' : ¬ t + 1 < last.start := by omega
  have h2' : ¬ t + 1 ≤ last.end_ := by omega
  have hA0 : 0 < statsAvgCycle ((last :: rest).map (fun r => r.start)) a := by linarith
  set A' := statsAvgCycle ((last :: rest).map (fun r => r.start)) a with hA'def
  set M' := statsAvgMenses periods with hM'def
  set q := (t - last.start).fdiv A' with hqdef
  set r := (t - last.start).fmod A' with hrdef
  have hdecomp : t - last.start = A' * q + r := fdiv_fmod_decomp (t - last.start) A'
  have hb : 0 ≤ r ∧ r < A' := fmod_bounds (t - last.start) hA0
  rw [classifyTarget_projected last A' M' M' t q r hA0 h1 h2 hdecomp hb.1 hb.2]
  by_cases hcase : r + 1 < A'
  · have hd' : t + 1 - last.start = A' * q + (r + 1) := by omega
    have hq' : (t + 1 - last.start).fdiv A' = q := (fdivmod_char hA0 hd' (by omega) hcase).1
    rw [classifyTarget_projected last A' M' M' (t + 1) q (r + 1) hA0 h1' h2' hd'
      (by omega) hcase]
    refine ⟨stageOfPos_ne_delayed _ _ _, ?_, ?_, ?_⟩
    · intro hst
      have := (stageOfPos_menses_iff A' M' r).mp hst
      omega
    · intro _
      exact stageOfPos_rank_mono A' M' r
    · intro hdiv
      exact absurd hq' hdiv
  · have hr1 : r + 1 = A' := by omega
    have hmul : A' * (q + 1) = A' * q + A' := by ring
    have hd'' : t + 1 - last.start = A' * (q + 1) + 0 := by omega
    have hq'' : (t + 1 - last.start).fdiv A' = q + 1 :=
      (fdivmod_char hA0 hd'' (by omega) (by omega)).1
    rw [classifyTarget_projected last A' M' M' (t + 1) (q + 1) 0 hA0 h1' h2' hd''
      (by omega) (by omega)]
    refine ⟨stageOfPos_ne_delayed _ _ _, ?_, ?_, ?_⟩
    · intro hst
      have := (stageOfPos_menses_iff A' M' r).mp hst
      omega
    · intro hdiv
      exact absurd (hq''.symm.trans hdiv) (by omega)
    · intro _
      exact (stageOfPos_menses_iff A' M' 0).mpr (by omega)

/-- C5, witness at a concrete input (day 9 → day 10 of the example history). -/
theorem claim5_witness :
    (calculate_predictions [⟨0, 4⟩] 28 9 ⟨28, 5⟩).1.current_stage ≠ Stage.delayed ∧
    ((calculate_predictions [⟨0, 4⟩] 28 9 ⟨28, 5⟩).1.current_stage = Stage.mensesProjected →
      ((9 : Int) - 0).fmod 28 + 1 ≤ 5) ∧
    (((9 : Int) + 1 - 0).fdiv 28 = ((9 : Int) - 0).fdiv 28 →
      stageRank (calculate_predictions [⟨0, 4⟩] 28 9 ⟨28, 5⟩).1.current_stage ≤
        stageRank (calculate_predictions [⟨0, 4⟩] 28 (9 + 1) ⟨28, 5⟩).1.current_stage) ∧
    (((9 : Int) + 1 - 0).fdiv 28 ≠ ((9 : Int) - 0).fdiv 28 →
      (calculate_predictions [⟨0, 4⟩] 28 (9 + 1) ⟨28, 5⟩).1.current_stage =
        Stage.mensesProjected) :=
  claim5_phase_order [⟨0, 4⟩] 28 ⟨28, 5⟩ 9 0 4 28 5 (by decide) (by decide) (by decide)
    (by decide) (by decide) (by decide) (by decide) (by decide)
